import Mathlib

/-!  Verification of the passport-cerbere CAS 2.0 / SAML 1.1 client against its
natural-language specification.  The definitions below shallowly embed the
JavaScript sources: the profile normalisation and stale-ticket retry logic of
`src/lib/strategy.js` (mirrored in the async strategy source), the SOAP request
construction shared by both Cerbere clients, and the fast-xml-parser based
response handler of the unnamed Cerbere client source. -/

/-!  ## Attribute normaliser (Strategy.prototype.authenticate, success branch)

The raw attribute bag is a total lookup table `String → Option String`; `none`
plays the role of the JavaScript `undefined` returned by a missed property
lookup.  JavaScript object mutation (`delete attributes[k]`) becomes functional
update.  Name subfields hold a three-valued JavaScript primitive: the literal
`null` of the profile initialiser, `undefined` from a missed lookup, or a
string. -/

/-- JavaScript primitive stored in a profile name subfield. -/
inductive JsPrim where
  | null
  | undefined
  | str (s : String)
deriving DecidableEq

/-- String coercion performed by the JavaScript `+` operator when a name
subfield is concatenated into `displayName`. -/
def jsPrimString : JsPrim → String
  | .null => "null"
  | .undefined => "undefined"
  | .str s => s

/-- A raw attribute value as seen by a JavaScript property lookup. -/
def jsOfOpt (v : Option String) : JsPrim :=
  match v with
  | none => .undefined
  | some s => .str s

/-- The attribute bag handed to the normaliser. -/
def Bag : Type := String → Option String

/-- The bag with no attributes at all. -/
def bagEmpty : Bag := fun _ => none

/-- JavaScript `delete attributes[k]`. -/
def bagDelete (b : Bag) (k : String) : Bag := fun q => if q = k then none else b q

/-- JavaScript `a || b` where `a` is a string attribute or `undefined`: the
empty string is falsy, so it also falls through to the default. -/
def jsOrStr (v : Option String) (d : String) : String :=
  match v with
  | some s => if s = "" then d else s
  | none => d

/-- Association-list update with JavaScript object semantics: an existing key
is overwritten in place, a new key is appended. -/
def assocSet {α : Type} : List (String × α) → String → α → List (String × α)
  | [], k, v => [(k, v)]
  | (k2, v2) :: rest, k, v =>
      if k2 = k then (k, v) :: rest else (k2, v2) :: assocSet rest k v

/-- Association-list lookup (first match). -/
def assocLookup {α : Type} : List (String × α) → String → Option α
  | [], _ => none
  | (k2, v2) :: rest, k => if k2 = k then some v2 else assocLookup rest k

/-- The `profile.name` object: the four subfields of the initialiser, the
`displayName` subfield added by the normaliser, and any further subfields a
PropertyMap `name` section may assign (in assignment order). -/
structure JSName where
  civilite : JsPrim
  familyName : JsPrim
  givenName : JsPrim
  middleName : JsPrim
  displayName : JsPrim
  extra : List (String × JsPrim)
deriving DecidableEq

/-- `profile.name` as initialised at the top of the success branch:
all four subfields literally `null`, no `displayName` yet. -/
def initName : JSName :=
  { civilite := .null, familyName := .null, givenName := .null,
    middleName := .null, displayName := .undefined, extra := [] }

/-- JavaScript assignment `profile.name[field] = v`. -/
def assignName (n : JSName) (field : String) (v : JsPrim) : JSName :=
  if field = "civilite" then { n with civilite := v }
  else if field = "familyName" then { n with familyName := v }
  else if field = "givenName" then { n with givenName := v }
  else if field = "middleName" then { n with middleName := v }
  else if field = "displayName" then { n with displayName := v }
  else { n with extra := assocSet n.extra field v }

/-- A `{key, type}` entry of the PropertyMap `emails` / `telephones`
sections. -/
structure KeyTypeEntry where
  key : String
  type : String
deriving DecidableEq

/-- The `key` object of a PropertyMap `adresses` entry. -/
structure AdresseKey where
  street : String
  town : String
  streetcode : String
  country : String
deriving DecidableEq

/-- A PropertyMap `adresses` entry. -/
structure AdresseEntry where
  key : AdresseKey
  type : String
deriving DecidableEq

/-- The `key` object of a PropertyMap `organizations` entry. -/
structure OrgKey where
  code : String
  name : String
deriving DecidableEq

/-- A PropertyMap `organizations` entry. -/
structure OrgEntry where
  key : OrgKey
  type : String
deriving DecidableEq

/-- The caller-supplied PropertyMap.  `name` lists the subfield/attribute-key
pairs of the `name` section in object insertion order; `extras` lists the
scalar PropertyMap properties that are not one of the six fixed sections.  As
a JavaScript object a PropertyMap cannot repeat a property name, and an extra
property cannot be named like one of the fixed profile fields, so `extras`
names are pairwise distinct and disjoint from the fixed field names. -/
structure PropertyMap where
  id : Option String
  name : List (String × String)
  emails : List KeyTypeEntry
  telephones : List KeyTypeEntry
  adresses : List AdresseEntry
  organizations : List OrgEntry
  extras : List (String × String)
deriving DecidableEq

/-- A normalised `emails` / `telephones` profile entry. -/
structure EmailValue where
  value : Option String
  type : String
deriving DecidableEq

/-- A normalised `adresses` profile entry. -/
structure AdresseValue where
  street : Option String
  town : Option String
  streetcode : Option String
  country : Option String
  type : String
deriving DecidableEq

/-- A normalised `organizations` profile entry. -/
structure OrgValue where
  code : Option String
  name : Option String
  type : String
deriving DecidableEq

/-- The normalised profile. -/
structure Profile where
  provider : String
  id : Option String
  name : JSName
  emails : List EmailValue
  telephones : List EmailValue
  adresses : List AdresseValue
  organizations : List OrgValue
  extras : List (String × Option String)
deriving DecidableEq

/-- The `name` section loop: for each `(subfield, mappedKey)` of the
PropertyMap `name` object, assign `attributes[mappedKey]` to the subfield and
then `delete attributes[subfield]` (the source deletes the subfield name, not
the mapped key). -/
def nameSection : List (String × String) → JSName → Bag → JSName × Bag
  | [], n, b => (n, b)
  | (sub, key) :: rest, n, b =>
      nameSection rest (assignName n sub (jsOfOpt (b key))) (bagDelete b sub)

/-- The `emails` section loop: push `{value: attributes[e.key], type: e.type}`
and `delete attributes[e.key]`. -/
def emailsSection : List KeyTypeEntry → Bag → List EmailValue × Bag
  | [], b => ([], b)
  | e :: rest, b =>
      let t := emailsSection rest (bagDelete b e.key)
      ({ value := b e.key, type := e.type } :: t.1, t.2)

/-- The `telephones` section loop: push `{value: attributes[t.key],
type: t.type}` and `delete attributes[t.type]` (the source deletes the type
string, not the key). -/
def telephonesSection : List KeyTypeEntry → Bag → List EmailValue × Bag
  | [], b => ([], b)
  | e :: rest, b =>
      let t := telephonesSection rest (bagDelete b e.type)
      ({ value := b e.key, type := e.type } :: t.1, t.2)

/-- The `adresses` section loop: pure reads, no deletion. -/
def adressesSection (l : List AdresseEntry) (b : Bag) : List AdresseValue :=
  l.map (fun a =>
    { street := b a.key.street, town := b a.key.town,
      streetcode := b a.key.streetcode, country := b a.key.country,
      type := a.type })

/-- The `organizations` section loop: pure reads, no deletion. -/
def orgsSection (l : List OrgEntry) (b : Bag) : List OrgValue :=
  l.map (fun o => { code := b o.key.code, name := b o.key.name, type := o.type })

/-- The trailing loop adding PropertyMap properties not already present on the
profile: each extra scalar property is copied as
`profile[property] = attributes[propertyMap[property]]`. -/
def extrasSection (l : List (String × String)) (b : Bag) : List (String × Option String) :=
  l.map (fun p => (p.1, b p.2))

/-- Attach `displayName`, the JavaScript concatenation
`name.civilite + ' ' + name.givenName + ' ' + name.familyName`. -/
def withDisplay (n : JSName) : JSName :=
  { n with displayName := .str (jsPrimString n.civilite ++ " " ++
      jsPrimString n.givenName ++ " " ++ jsPrimString n.familyName) }

/-- The bag state after the `name` section. -/
def bagAfterName (pm : PropertyMap) (b : Bag) : Bag :=
  (nameSection pm.name initName b).2

/-- The bag state after the `emails` section. -/
def bagAfterEmails (pm : PropertyMap) (b : Bag) : Bag :=
  (emailsSection pm.emails (bagAfterName pm b)).2

/-- The bag state after the `telephones` section (the last mutating
section). -/
def bagAfterTels (pm : PropertyMap) (b : Bag) : Bag :=
  (telephonesSection pm.telephones (bagAfterEmails pm b)).2

/-- The whole success-branch normalisation of `Strategy.prototype.authenticate`
in `src/lib/strategy.js`.  The profile is initialised with
`id: attributes.id || username`; the `for (key in profile)` loop then
runs over `provider, id, name, emails, telephones, adresses, organizations` in
insertion order, and for `id` (when the PropertyMap owns an `id` property)
overwrites the initial value with the bare lookup
`attributes[propertyMap.id]`; finally the trailing loop copies the extra
PropertyMap properties. -/
def normalizeProfile (pm : PropertyMap) (b : Bag) (username : String) : Profile :=
  { provider := "Cerbere"
  , id := match pm.id with
      | some k => b k
      | none => some (jsOrStr (b "id") username)
  , name := withDisplay (nameSection pm.name initName b).1
  , emails := (emailsSection pm.emails (bagAfterName pm b)).1
  , telephones := (telephonesSection pm.telephones (bagAfterEmails pm b)).1
  , adresses := adressesSection pm.adresses (bagAfterTels pm b)
  , organizations := orgsSection pm.organizations (bagAfterTels pm b)
  , extras := extrasSection pm.extras (bagAfterTels pm b) }

/-- Every attribute key the PropertyMap references: the `id` mapping, the
mapped keys of the `name` section, the `key` fields of the list sections and
the mapped keys of the extra scalar properties. -/
def referencedKeys (pm : PropertyMap) : List String :=
  (match pm.id with | some k => [k] | none => []) ++
  pm.name.map (fun p => p.2) ++
  pm.emails.map (fun e => e.key) ++
  pm.telephones.map (fun t => t.key) ++
  pm.adresses.map (fun a => a.key.street) ++
  pm.adresses.map (fun a => a.key.town) ++
  pm.adresses.map (fun a => a.key.streetcode) ++
  pm.adresses.map (fun a => a.key.country) ++
  pm.organizations.map (fun o => o.key.code) ++
  pm.organizations.map (fun o => o.key.name) ++
  pm.extras.map (fun p => p.2)

/-- A PropertyMap with every section empty (used at concrete inputs). -/
def pmTrivial : PropertyMap :=
  { id := none, name := [], emails := [], telephones := [], adresses := [],
    organizations := [], extras := [] }

/-- `pmTrivial` plus an `id` mapping, as in the README configuration. -/
def pmWithId : PropertyMap := { pmTrivial with id := some "UTILISATEUR.ID" }

/-- A bag holding only the literal attribute key `id`. -/
def bagOnlyId : Bag := fun k => if k = "id" then some "xleak" else none

/-!  ## Variant B response handler (fast-xml-parser based Cerbere client)

The `res.on("end")` handler of `Cerbere.prototype.validate` receives either a
parse exception (caught by the `try`/`catch` around `fxp.parse`) or the parsed
JavaScript tree.  The tree is embedded as `JsTree`; property access on
`undefined` raises a `TypeError`, property access on any other value yields the
property or `undefined`.  The code after the `try`/`catch` runs outside any
exception handler, so a raised `TypeError` is an uncaught fault. -/

/-- A JavaScript value in the tree produced by `fxp.parse`. -/
inductive JsTree where
  | undefined
  | str (s : String)
  | num (n : Int)
  | obj (fields : List (String × JsTree))
  | arr (elems : List JsTree)

/-- A JavaScript runtime fault raised by the handler. -/
inductive JsErr where
  | typeError
deriving DecidableEq

/-- JavaScript string coercion for tree values (`String(v)`, as performed by
`+` on strings and by object-key conversion). -/
def jsCoerceString : JsTree → String
  | .undefined => "undefined"
  | .str s => s
  | .num n => toString n
  | .obj _ => "[object Object]"
  | .arr _ => ""

/-- JavaScript falsiness of a tree value (`!v`). -/
def jsFalsy : JsTree → Bool
  | .undefined => true
  | .str s => s = ""
  | .num n => n = 0
  | .obj _ => false
  | .arr _ => false

/-- JavaScript named property access `v[k]`: a `TypeError` on `undefined`,
the field or `undefined` on an object, `length` on arrays and strings,
`undefined` elsewhere. -/
def jsIndexStr : JsTree → String → Except JsErr JsTree
  | .undefined, _ => .error .typeError
  | .obj fs, k => .ok ((assocLookup fs k).getD .undefined)
  | .arr l, k => .ok (if k = "length" then .num l.length else .undefined)
  | .str s, k => .ok (if k = "length" then .num s.length else .undefined)
  | .num _, _ => .ok .undefined

/-- JavaScript numeric property access `v[i]`. -/
def jsIndexNat : JsTree → Nat → Except JsErr JsTree
  | .undefined, _ => .error .typeError
  | .obj fs, i => .ok ((assocLookup fs (toString i)).getD .undefined)
  | .arr l, i => .ok ((l.get? i).getD .undefined)
  | .str s, i => .ok (match s.data.get? i with
      | some c => .str (String.singleton c)
      | none => .undefined)
  | .num _, _ => .ok .undefined

/-- JavaScript `v.hasOwnProperty(k)`: a `TypeError` on `undefined`; for the
property names this handler tests, `false` on every non-object. -/
def jsHasOwn : JsTree → String → Except JsErr Bool
  | .undefined, _ => .error .typeError
  | .obj fs, k => .ok (assocLookup fs k).isSome
  | _, _ => .ok false

/-- The body of the `parseAttributes` loop of the fast-xml-parser client: for
each entry owning an `@_AttributeName`, store
`attributes[name] = entry['AttributeValue']['#text']`, overwriting any earlier
entry with the same name (no list accumulation). -/
def parseAttrList : List JsTree → List (String × JsTree) →
    Except JsErr (List (String × JsTree))
  | [], acc => .ok acc
  | a :: rest, acc =>
      match jsHasOwn a "@_AttributeName" with
      | .error e => .error e
      | .ok has =>
        if has then
          match jsIndexStr a "@_AttributeName" with
          | .error e => .error e
          | .ok nameV =>
            match jsIndexStr a "AttributeValue" with
            | .error e => .error e
            | .ok av =>
              match jsIndexStr av "#text" with
              | .error e => .error e
              | .ok tv => parseAttrList rest (assocSet acc (jsCoerceString nameV) tv)
        else parseAttrList rest acc

/-- `parseAttributes(elemAttributes)` of the fast-xml-parser client.  The
source iterates `for (i = 0; i < elemAttributes.length; i++)`: on `undefined`
reading `.length` raises a `TypeError`; on an array the loop visits each
element in order; on any other value (a single parsed element is an object
with no `length` property) the loop condition is false at once and the empty
bag is returned. -/
def parseAttributes : JsTree → Except JsErr (List (String × JsTree))
  | .undefined => .error .typeError
  | .arr l => parseAttrList l []
  | _ => .ok []

/-- Outcome of running the response handler: the three callback shapes of the
source, or an uncaught JavaScript fault. -/
inductive HandlerResult where
  | cbParseError (e : String)
  | cbNoUserId
  | cbFailure (message : String)
  | cbSuccess (userId : JsTree) (attributes : List (String × JsTree)) (ticket : String)
  | uncaught (e : JsErr)

/-- What reaches the handler: the exception message caught around `fxp.parse`,
or the parsed tree. -/
inductive ParseOutcome where
  | err (e : String)
  | ok (tree : JsTree)

/-- The membership test `['ns2:Success'].includes(v)`: SameValueZero equality
with the string sentinel, true exactly for that string value. -/
def isSuccessSentinel : JsTree → Bool
  | .str s => s = "ns2:Success"
  | _ => false

/-- The code after the `try`/`catch`: descend
`Envelope → Body → Response → Status → StatusCode`, compare `@_Value` against
the success sentinel `ns2:Success`, and dispatch to the success or failure
callback. -/
def descendAndDispatch (tree : JsTree) (ticket : String) : Except JsErr HandlerResult := do
  let env ← jsIndexStr tree "Envelope"
  let body ← jsIndexStr env "Body"
  let elemResponse ← jsIndexStr body "Response"
  let st ← jsIndexStr elemResponse "Status"
  let elemStatusCode ← jsIndexStr st "StatusCode"
  let v ← jsIndexStr elemStatusCode "@_Value"
  if isSuccessSentinel v then
    let assertion ← jsIndexStr elemResponse "Assertion"
    let a0 ← jsIndexNat assertion 0
    let elemAttributeStatement ← jsIndexStr a0 "AttributeStatement"
    let subj ← jsIndexStr elemAttributeStatement "Subject"
    let ni ← jsIndexStr subj "NameIdentifier"
    let userId ← jsIndexStr ni "#text"
    if jsFalsy userId then
      return .cbNoUserId
    else
      let attrV ← jsIndexStr elemAttributeStatement "Attribute"
      let attributes ← parseAttributes attrV
      return .cbSuccess userId attributes ticket
  else
    let txt ← jsIndexStr elemStatusCode "#text"
    return .cbFailure ("Validation failed [" ++ jsCoerceString v ++ "]: " ++ jsCoerceString txt)

/-- The whole `res.on("end")` handler of the fast-xml-parser client: a parse
exception goes to the callback from the `catch` block; the descent and
dispatch run unprotected, so a fault there is uncaught. -/
def endHandler : ParseOutcome → String → HandlerResult
  | .err e, _ => .cbParseError e
  | .ok tree, ticket =>
      match descendAndDispatch tree ticket with
      | .error e => .uncaught e
      | .ok r => r

/-- Does some later attribute entry bind `name`?  `lastAttrText l name` is the
`AttributeValue` text of the LAST entry of `l` whose `@_AttributeName` coerces
to `name`, matching the overwrite semantics of the bag. -/
def attrNameMatches (a : JsTree) (name : String) : Bool :=
  match a with
  | .obj fs =>
      match assocLookup fs "@_AttributeName" with
      | some v => jsCoerceString v = name
      | none => false
  | _ => false

/-- The `AttributeValue` text of one attribute entry as the handler reads it
(`entry['AttributeValue']['#text']`). -/
def attrText (a : JsTree) : JsTree :=
  match a with
  | .obj fs =>
      match (assocLookup fs "AttributeValue").getD .undefined with
      | .obj g => (assocLookup g "#text").getD .undefined
      | _ => .undefined
  | _ => .undefined

/-- The text of the last entry binding `name`, if any. -/
def lastAttrText : List JsTree → String → Option JsTree
  | [], _ => none
  | a :: rest, name =>
      match lastAttrText rest name with
      | some v => some v
      | none => if attrNameMatches a name then some (attrText a) else none

/-- An attribute entry the loop can process without a fault: not `undefined`,
and when it owns an `@_AttributeName` its `AttributeValue` is present (so that
reading `['#text']` cannot raise). -/
def wfAttr (a : JsTree) : Bool :=
  match a with
  | .undefined => false
  | .obj fs =>
      match assocLookup fs "@_AttributeName" with
      | none => true
      | some _ =>
          match (assocLookup fs "AttributeValue").getD .undefined with
          | .undefined => false
          | _ => true
  | _ => true

/-- The parsed attribute entry `UTILISATEUR.MEL = b@x.com`. -/
def bobAttrEntry : JsTree :=
  .obj [ ("@_AttributeName", .str "UTILISATEUR.MEL")
       , ("AttributeValue", .obj [("#text", .str "b@x.com")]) ]

/-- The parsed tree of a well-formed Variant B success response for subject
`bob` with the single attribute `UTILISATEUR.MEL = b@x.com`. -/
def bobTree : JsTree :=
  .obj [("Envelope", .obj [("Body", .obj [("Response", .obj
    [ ("Status", .obj [("StatusCode", .obj [("@_Value", .str "ns2:Success")])])
    , ("Assertion", .arr [.obj [("AttributeStatement", .obj
        [ ("Subject", .obj [("NameIdentifier", .obj [("#text", .str "bob")])])
        , ("Attribute", .arr [bobAttrEntry]) ])]]) ])])])]

/-- The parse of the well-formed XML body `<foo/>`: no `Envelope` root. -/
def fooTree : JsTree := .obj [("foo", .str "")]

/-!  ## SOAP request body (both Cerbere clients, identical template)

`Cerbere.prototype.validate` builds the envelope with
`util.format(template, uuid.v4(), new Date().toISOString(), ticket)`; the
fresh request id and the issue instant are parameters here. -/

/-- Everything of the envelope before the ticket. -/
def soapHead (requestId issueInstant : String) : String :=
  "<SOAP-ENV:Envelope xmlns:SOAP-ENV=\"http://schemas.xmlsoap.org/soap/envelope/\"><SOAP-ENV:Header/><SOAP-ENV:Body><samlp:Request xmlns:samlp=\"urn:oasis:names:tc:SAML:1.0:protocol\" MajorVersion=\"1\" MinorVersion=\"1\" RequestID=\"" ++
  requestId ++ "\" IssueInstant=\"" ++ issueInstant ++ "\"><samlp:AssertionArtifact>"

/-- Everything of the envelope after the ticket. -/
def soapTail : String :=
  "</samlp:AssertionArtifact></samlp:Request></SOAP-ENV:Body></SOAP-ENV:Envelope>"

/-- The SOAP envelope exactly as the source formats it: the ticket is spliced
in verbatim, with no escaping of any kind. -/
def soapEnvelope (requestId issueInstant ticket : String) : String :=
  soapHead requestId issueInstant ++ ticket ++ soapTail

/-- Modelled from the spec: the XML escaping of the five metacharacters that
`§4.1` requires before the ticket is embedded (`the ticket value MUST be
XML-escaped before embedding`); no function of the repository implements it. -/
def xmlEscapeChar (c : Char) : String :=
  if c = '&' then "&amp;"
  else if c = '<' then "&lt;"
  else if c = '>' then "&gt;"
  else if c = '"' then "&quot;"
  else if c = '\'' then "&apos;"
  else String.singleton c

/-- Modelled from the spec: XML-escape a whole string. -/
def xmlEscape (s : String) : String :=
  s.data.foldr (fun c acc => xmlEscapeChar c ++ acc) ""

/-- The envelope as the specification demands it: ticket escaped. -/
def soapEnvelopeEscaped (requestId issueInstant ticket : String) : String :=
  soapHead requestId issueInstant ++ xmlEscape ticket ++ soapTail

/-!  ## Stale-ticket retry controller (failure branch of
`Strategy.prototype.authenticate`)

On a validation failure the source computes
`token = Math.round(date.getTime() / 60000)` and compares it with the
`_cas_retry` query parameter; on a mismatch it rewrites the original request
URL with two regular-expression replacements and redirects with status 307,
otherwise it fails terminally.  `Math.round` on a non-negative argument is
round-half-up over the exact rational value of the quotient (the double
division is exact enough that no tie is perturbed for any ECMAScript time
value). -/

/-- `Math.round(q)` for non-negative `q`: round half up. -/
def jsMathRound (q : ℚ) : ℤ := ⌊q + 1 / 2⌋

/-- The coarse time token of the retry controller:
`Math.round(date.getTime() / 60000)` where `t` is the current time in
milliseconds. -/
def casTimeToken (t : ℕ) : ℤ := jsMathRound ((t : ℚ) / 60000)

/-- Strip a literal off the front of a character list. -/
def stripLit : List Char → List Char → Option (List Char)
  | [], l => some l
  | _ :: _, [] => none
  | c :: cs, x :: xs => if x = c then stripLit cs xs else none

/-- Greedy take of a character class, returning the taken part and the
remainder. -/
def spanP (p : Char → Bool) : List Char → List Char × List Char
  | [] => ([], [])
  | c :: rest =>
      if p c then
        let t := spanP p rest
        (c :: t.1, t.2)
      else ([], c :: rest)

/-- A `\w` word character of the ticket pattern plus dot and dash:
`[\w.-]`. -/
def isTicketChar (c : Char) : Bool :=
  c.isAlphanum || c = '_' || c = '.' || c = '-'

/-- Match the pattern `_cas_retry=\d+&?` at the head of the list, returning
what follows the (greedy) match. -/
def matchRetryMarker (l : List Char) : Option (List Char) :=
  match stripLit "_cas_retry=".data l with
  | none => none
  | some rest =>
      let t := spanP Char.isDigit rest
      if t.1.isEmpty then none
      else
        match t.2 with
        | '&' :: r => some r
        | r => some r

/-- `.replace(/_cas_retry=\d+&?/, '')`: delete the leftmost match, if any. -/
def stripRetryMarker : List Char → List Char
  | [] => []
  | c :: rest =>
      match matchRetryMarker (c :: rest) with
      | some r => r
      | none => c :: stripRetryMarker rest

/-- Match `ticket=[\w.-]+` at the head of the list, returning what follows the
greedy match. -/
def matchTicketParam (l : List Char) : Option (List Char) :=
  match stripLit "ticket=".data l with
  | none => none
  | some rest =>
      let t := spanP isTicketChar rest
      if t.1.isEmpty then none else some t.2

/-- `.replace(/([?&])ticket=[\w.-]+/, '$1_cas_retry=' + token)`: at the
leftmost `?` or `&` followed by a ticket parameter, replace the parameter by
the retry marker. -/
def replaceTicketParam (tok : String) : List Char → List Char
  | [] => []
  | c :: rest =>
      if c = '?' || c = '&' then
        match matchTicketParam rest with
        | some r => c :: ("_cas_retry=" ++ tok).data ++ r
        | none => c :: replaceTicketParam tok rest
      else c :: replaceTicketParam tok rest

/-- The redirect URL the failure branch builds from the original request URL:
first strip any retry marker, then replace the ticket parameter by the fresh
marker. -/
def casRetryUrl (originalUrl : String) (tok : String) : String :=
  ⟨replaceTicketParam tok (stripRetryMarker originalUrl.data)⟩

/-- What the failure branch does: redirect or terminal failure. -/
inductive AuthFailOutcome where
  | redirect (url : String) (status : Nat)
  | fail
deriving DecidableEq

/-- The failure branch of `Strategy.prototype.authenticate`: `marker` is the
numeric value of the `_cas_retry` query parameter (absent, or the token it
carries — the source compares with JavaScript loose equality, which on the
decimal markers this code itself plants coincides with numeric equality),
`now` the current time in milliseconds, `originalUrl` the request URL. -/
def casFailureHandler (marker : Option ℤ) (now : ℕ) (originalUrl : String) :
    AuthFailOutcome :=
  let token := casTimeToken now
  if marker = some token then .fail
  else .redirect (casRetryUrl originalUrl (toString token)) 307

/-!  ## The cheerio-based Cerbere client (Variant A, `src/lib/cerbere.js`)

Its constructor stores the parsed server URL in `this.cerbere_url`; its
`validate` reads `this.cerbereURL.hostname` — a property of a field no code
path ever assigns. -/

/-- The fields of a node `url.parse` result that the client reads. -/
structure ParsedUrl where
  protocol : Option String
  hostname : Option String
  port : Option String
  pathname : Option String
  href : String
deriving DecidableEq

/-- The state of a cheerio-client instance after construction.  `cerbereURL`
is listed because `validate` reads it; no assignment to it exists in the
file. -/
structure CerbereClient where
  cerbere_url : ParsedUrl
  cerbereURL : Option ParsedUrl
  base_path : Option String
deriving DecidableEq

/-- The `Cerbere` constructor of `src/lib/cerbere.js`: `opts` is
`url.parse(options.url)` (or `none` when the `url` option is missing).  Every
error message is the one thrown by the source. -/
def cerbereCtor (opts : Option ParsedUrl) : Except String CerbereClient :=
  match opts with
  | none => .error "Required Cerbere option `url` missing."
  | some u =>
      if u.protocol ≠ some "https:" then
        .error "Cerbere url supports only https protocol."
      else if u.hostname = none ∨ u.hostname = some "" then
        .error "Option `url` must be a valid url like: https://authentification.din.developpement-durable.gouv.fr/cas/public"
      else
        .ok { cerbere_url := u, cerbereURL := none, base_path := u.pathname }

/-- The request descriptor `validate` would hand to `https.request`.  The
`TARGET` query value is kept unencoded in its own field rather than modelling
the percent-encoding of `url.format`. -/
structure RequestDescriptor where
  host : String
  path : String
  target : String
  verb : String
  body : String
deriving DecidableEq

/-- The part of `Cerbere.prototype.validate` (cheerio client) that runs before
any network activity: build the SOAP envelope, then build the request options,
reading `this.cerbereURL.hostname`.  Reading a property of `undefined` raises
a `TypeError`, so the function never produces a descriptor, never sends, and
never invokes the callback. -/
def validateARequest (c : CerbereClient) (ticket service requestId issueInstant : String) :
    Except JsErr RequestDescriptor :=
  let body := soapEnvelope requestId issueInstant ticket
  match c.cerbereURL with
  | none => .error .typeError
  | some u =>
      .ok { host := (u.hostname.getD ""),
            path := (c.base_path.getD "") ++ "/" ++ "/samlValidate",
            target := service, verb := "POST", body := body }

/-- A parsed URL accepted by the constructor (concrete witness input). -/
def exampleParsedUrl : ParsedUrl :=
  { protocol := some "https:", hostname := some "auth.example", port := none,
    pathname := some "/cas/public", href := "https://auth.example/cas/public" }

/-- The client the constructor builds from `exampleParsedUrl`. -/
def exampleClient : CerbereClient :=
  { cerbere_url := exampleParsedUrl, cerbereURL := none,
    base_path := some "/cas/public" }

/-!  ## Theorems -/

/-- Closed form of the retry token: `Math.round(t / 60000)` is the floor of
`(t + 30000) / 60000`, not the floor of `t / 60000`. -/
theorem casTimeToken_round (t : ℕ) : casTimeToken t = ((t + 30000) / 60000 : ℕ) := by
  unfold casTimeToken jsMathRound
  have h : (t : ℚ) / 60000 + 1 / 2 = ((t + 30000 : ℕ) : ℚ) / ((60000 : ℕ) : ℚ) := by
    push_cast
    ring
  rw [h]
  exact_mod_cast Rat.floor_natCast_div_natCast (t + 30000) 60000

/-- C3 (amended): the coarse time token that the retry controller stamps and
compares is `Math.round(t / 60000)`, i.e. the integer floor of
`(t + 30000) / 60000` — round half up over 60-second windows, not the integer
floor of `t / 60000`. -/
theorem C3_token_is_round (t : ℕ) :
    casTimeToken t = ((t + 30000) / 60000 : ℕ) :=
  casTimeToken_round t

/-- C3 counterexample: at `t = 30000` the code token is `1` while the integer
floor of `t / 60000` claimed by the specification is `0`. -/
theorem C3_counterexample :
    casTimeToken 30000 = 1 ∧ (30000 / 60000 : ℕ) = 0 ∧
    casTimeToken 30000 ≠ ((30000 / 60000 : ℕ) : ℤ) := by
  have h := casTimeToken_round 30000
  refine ⟨?_, rfl, ?_⟩
  · rw [h]; decide
  · rw [h]; decide

set_option maxRecDepth 8192 in
/-- C4: the SOAP envelope embeds the ticket verbatim — for the ticket `a<b`
the body holds the raw text, and it differs from the envelope the
specification requires, which embeds the XML-escaped ticket. -/
theorem C4_ticket_embedded_raw :
    soapEnvelope "R" "I" "a<b" = soapHead "R" "I" ++ "a<b" ++ soapTail ∧
    xmlEscape "a<b" = "a&lt;b" ∧
    soapEnvelope "R" "I" "a<b" ≠ soapEnvelopeEscaped "R" "I" "a<b" := by
  refine ⟨rfl, rfl, ?_⟩
  decide

/-- C10: any client the `src/lib/cerbere.js` constructor builds has no
`cerbereURL` field value, so its `validate` raises a `TypeError` while
building the request options — before any request is sent and before the
callback can be invoked. -/
theorem C10_cheerio_validate_throws (u : ParsedUrl) (c : CerbereClient)
    (h : cerbereCtor (some u) = .ok c)
    (ticket service requestId issueInstant : String) :
    c.cerbereURL = none ∧
    validateARequest c ticket service requestId issueInstant = .error .typeError := by
  have hc : c.cerbereURL = none := by
    unfold cerbereCtor at h
    split at h
    · exact absurd h (by simp)
    · split at h
      · exact absurd h (by simp)
      · split at h
        · exact absurd h (by simp)
        · injection h with h2
          rw [← h2]
  refine ⟨hc, ?_⟩
  unfold validateARequest
  rw [hc]

/-- C10 witness: the constructor accepts `exampleParsedUrl` and the resulting
client's `validate` raises. -/
theorem C10_witness :
    cerbereCtor (some exampleParsedUrl) = .ok exampleClient ∧
    (exampleClient.cerbereURL = none ∧
     validateARequest exampleClient "T" "S" "R" "I" = .error .typeError) :=
  ⟨rfl, C10_cheerio_validate_throws exampleParsedUrl exampleClient rfl "T" "S" "R" "I"⟩

/-- C7 (amended): the profile `id` the normaliser outputs is the bare lookup
of the PropertyMap `id` key when the PropertyMap has an `id` property — with
no fallback of any kind — and only without such a property is it the literal
attribute `id` with fallback to the validated username. -/
theorem C7_id_overwritten (pm : PropertyMap) (b : Bag) (u : String) :
    (normalizeProfile pm b u).id =
      (match pm.id with
       | some k => b k
       | none => some (jsOrStr (b "id") u)) := rfl

/-- C7 counterexample: with an `id` mapping in the PropertyMap and the mapped
attribute absent, the profile id is `undefined`, not the validated subject
identifier `alice` the claim promises. -/
theorem C7_counterexample :
    pmWithId.id = some "UTILISATEUR.ID" ∧
    bagEmpty "UTILISATEUR.ID" = none ∧
    (normalizeProfile pmWithId bagEmpty "alice").id = none ∧
    (normalizeProfile pmWithId bagEmpty "alice").id ≠ some "alice" := by
  refine ⟨rfl, rfl, rfl, ?_⟩
  intro hcontra
  exact Option.noConfusion hcontra

/-- C8: `displayName` is always the civility, given-name and family-name
subfields of the final profile joined with single spaces in that order, the
JavaScript string coercion rendering missing subfields literally; with an
empty `name` PropertyMap section all three subfields stay `null` and the
visible text is `null null null`. -/
theorem C8_displayName_join (pm : PropertyMap) (b : Bag) (u : String) :
    (normalizeProfile pm b u).name.displayName =
      .str (jsPrimString (normalizeProfile pm b u).name.civilite ++ " " ++
        jsPrimString (normalizeProfile pm b u).name.givenName ++ " " ++
        jsPrimString (normalizeProfile pm b u).name.familyName) ∧
    (normalizeProfile pmTrivial b u).name.displayName = .str "null null null" :=
  ⟨rfl, rfl⟩

/-- The emails loop emits one entry per PropertyMap entry, types in
PropertyMap order. -/
theorem emailsSection_types (l : List KeyTypeEntry) (b : Bag) :
    (emailsSection l b).1.map (fun e => e.type) = l.map (fun e => e.type) := by
  induction l generalizing b with
  | nil => rfl
  | cons e rest ih => simp [emailsSection, ih]

/-- The telephones loop emits one entry per PropertyMap entry, types in
PropertyMap order. -/
theorem telephonesSection_types (l : List KeyTypeEntry) (b : Bag) :
    (telephonesSection l b).1.map (fun e => e.type) = l.map (fun e => e.type) := by
  induction l generalizing b with
  | nil => rfl
  | cons e rest ih => simp [telephonesSection, ih]

/-- Deleting from an all-empty bag keeps it all-empty. -/
theorem bagDelete_allNone (b : Bag) (hb : ∀ k, b k = none) (x : String) :
    ∀ k, bagDelete b x k = none := by
  intro k
  unfold bagDelete
  split <;> simp [hb]

/-- The name loop keeps an all-empty bag all-empty. -/
theorem nameSection_bag_allNone (entries : List (String × String)) (n : JSName)
    (b : Bag) (hb : ∀ k, b k = none) : ∀ k, (nameSection entries n b).2 k = none := by
  induction entries generalizing n b with
  | nil => exact hb
  | cons p rest ih =>
    obtain ⟨sub, key⟩ := p
    exact ih _ _ (bagDelete_allNone b hb sub)

/-- On an all-empty bag the emails loop yields entries with `undefined`
values — one per PropertyMap entry, none omitted — and keeps the bag
all-empty. -/
theorem emailsSection_allNone (l : List KeyTypeEntry) (b : Bag)
    (hb : ∀ k, b k = none) :
    (emailsSection l b).1 =
      l.map (fun e => ({ value := none, type := e.type } : EmailValue)) ∧
    ∀ k, (emailsSection l b).2 k = none := by
  induction l generalizing b with
  | nil => exact ⟨rfl, hb⟩
  | cons e rest ih =>
    have h := ih (bagDelete b e.key) (bagDelete_allNone b hb e.key)
    refine ⟨?_, h.2⟩
    simp [emailsSection, hb, h.1]

/-- On an all-empty bag the telephones loop yields entries with `undefined`
values and keeps the bag all-empty. -/
theorem telephonesSection_allNone (l : List KeyTypeEntry) (b : Bag)
    (hb : ∀ k, b k = none) :
    (telephonesSection l b).1 =
      l.map (fun e => ({ value := none, type := e.type } : EmailValue)) ∧
    ∀ k, (telephonesSection l b).2 k = none := by
  induction l generalizing b with
  | nil => exact ⟨rfl, hb⟩
  | cons e rest ih =>
    have h := ih (bagDelete b e.type) (bagDelete_allNone b hb e.type)
    refine ⟨?_, h.2⟩
    simp [telephonesSection, hb, h.1]

/-- C6: each list section of the profile has exactly one entry per
corresponding PropertyMap entry, in PropertyMap order (the `type` stamps match
positionally), and on a bag with none of the referenced attributes the entries
are still all present, with `undefined` value fields rather than being
omitted. -/
theorem C6_list_sections (pm : PropertyMap) (b : Bag) (u : String) :
    ((normalizeProfile pm b u).emails.map (fun e => e.type) =
      pm.emails.map (fun e => e.type)) ∧
    ((normalizeProfile pm b u).telephones.map (fun e => e.type) =
      pm.telephones.map (fun t => t.type)) ∧
    ((normalizeProfile pm b u).adresses.map (fun a => a.type) =
      pm.adresses.map (fun a => a.type)) ∧
    ((normalizeProfile pm b u).organizations.map (fun o => o.type) =
      pm.organizations.map (fun o => o.type)) ∧
    ((normalizeProfile pm bagEmpty u).emails =
      pm.emails.map (fun e => { value := none, type := e.type })) ∧
    ((normalizeProfile pm bagEmpty u).telephones =
      pm.telephones.map (fun t => { value := none, type := t.type })) ∧
    ((normalizeProfile pm bagEmpty u).adresses =
      pm.adresses.map (fun a =>
        { street := none, town := none, streetcode := none, country := none,
          type := a.type })) ∧
    ((normalizeProfile pm bagEmpty u).organizations =
      pm.organizations.map (fun o => { code := none, name := none, type := o.type })) := by
  have hbe : ∀ k, bagEmpty k = none := fun _ => rfl
  have hname : ∀ k, bagAfterName pm bagEmpty k = none :=
    nameSection_bag_allNone pm.name initName bagEmpty hbe
  have hem := emailsSection_allNone pm.emails (bagAfterName pm bagEmpty) hname
  have htl := telephonesSection_allNone pm.telephones (bagAfterEmails pm bagEmpty) hem.2
  refine ⟨emailsSection_types pm.emails _, telephonesSection_types pm.telephones _,
    ?_, ?_, hem.1, htl.1, ?_, ?_⟩
  · simp [normalizeProfile, adressesSection, List.map_map, Function.comp]
  · simp [normalizeProfile, orgsSection, List.map_map, Function.comp]
  · show adressesSection pm.adresses (bagAfterTels pm bagEmpty) = _
    unfold adressesSection
    exact List.map_congr_left (fun a _ => by simp [bagAfterTels, htl.2])
  · show orgsSection pm.organizations (bagAfterTels pm bagEmpty) = _
    unfold orgsSection
    exact List.map_congr_left (fun o _ => by simp [bagAfterTels, htl.2])

/-- Deletion preserves pointwise agreement of two bags on a key set. -/
theorem bagDelete_agree (S : List String) (b1 b2 : Bag)
    (h : ∀ k ∈ S, b1 k = b2 k) (x : String) :
    ∀ k ∈ S, bagDelete b1 x k = bagDelete b2 x k := by
  intro k hk
  unfold bagDelete
  split <;> simp [h k hk]

/-- The name loop reads bags only at the mapped keys: on bags agreeing on a
set containing them it produces the same name object and bags again agreeing
on the set. -/
theorem nameSection_congr (S : List String) :
    ∀ (entries : List (String × String)) (n : JSName) (b1 b2 : Bag),
    (∀ p ∈ entries, p.2 ∈ S) → (∀ k ∈ S, b1 k = b2 k) →
    (nameSection entries n b1).1 = (nameSection entries n b2).1 ∧
    ∀ k ∈ S, (nameSection entries n b1).2 k = (nameSection entries n b2).2 k
  | [], _, _, _, _, h => ⟨rfl, h⟩
  | (sub, key) :: rest, n, b1, b2, hkeys, h => by
    have hb : b1 key = b2 key := h key (hkeys (sub, key) (by simp))
    have ih := nameSection_congr S rest (assignName n sub (jsOfOpt (b2 key)))
      (bagDelete b1 sub) (bagDelete b2 sub)
      (fun q hq => hkeys q (by simp [hq])) (bagDelete_agree S b1 b2 h sub)
    constructor
    · simp only [nameSection]
      rw [hb]
      exact ih.1
    · intro k hk
      simp only [nameSection]
      rw [hb]
      exact ih.2 k hk

/-- The emails loop reads bags only at its keys. -/
theorem emailsSection_congr (S : List String) :
    ∀ (l : List KeyTypeEntry) (b1 b2 : Bag),
    (∀ e ∈ l, e.key ∈ S) → (∀ k ∈ S, b1 k = b2 k) →
    (emailsSection l b1).1 = (emailsSection l b2).1 ∧
    ∀ k ∈ S, (emailsSection l b1).2 k = (emailsSection l b2).2 k
  | [], _, _, _, h => ⟨rfl, h⟩
  | e :: rest, b1, b2, hkeys, h => by
    have hb : b1 e.key = b2 e.key := h e.key (hkeys e (by simp))
    have ih := emailsSection_congr S rest (bagDelete b1 e.key) (bagDelete b2 e.key)
      (fun q hq => hkeys q (by simp [hq])) (bagDelete_agree S b1 b2 h e.key)
    constructor
    · simp only [emailsSection]
      rw [hb, ih.1]
    · intro k hk
      simp only [emailsSection]
      exact ih.2 k hk

/-- The telephones loop reads bags only at its keys (it deletes elsewhere, but
equally on both sides). -/
theorem telephonesSection_congr (S : List String) :
    ∀ (l : List KeyTypeEntry) (b1 b2 : Bag),
    (∀ e ∈ l, e.key ∈ S) → (∀ k ∈ S, b1 k = b2 k) →
    (telephonesSection l b1).1 = (telephonesSection l b2).1 ∧
    ∀ k ∈ S, (telephonesSection l b1).2 k = (telephonesSection l b2).2 k
  | [], _, _, _, h => ⟨rfl, h⟩
  | e :: rest, b1, b2, hkeys, h => by
    have hb : b1 e.key = b2 e.key := h e.key (hkeys e (by simp))
    have ih := telephonesSection_congr S rest (bagDelete b1 e.type) (bagDelete b2 e.type)
      (fun q hq => hkeys q (by simp [hq])) (bagDelete_agree S b1 b2 h e.type)
    constructor
    · simp only [telephonesSection]
      rw [hb, ih.1]
    · intro k hk
      simp only [telephonesSection]
      exact ih.2 k hk

/-- An `id` mapping is a referenced key. -/
theorem refKeys_id {pm : PropertyMap} {k : String} (hid : pm.id = some k) :
    k ∈ referencedKeys pm := by
  unfold referencedKeys
  rw [hid]
  simp only [List.mem_append]
  tauto

/-- A name-section mapped key is referenced. -/
theorem refKeys_name {pm : PropertyMap} {p : String × String} (hp : p ∈ pm.name) :
    p.2 ∈ referencedKeys pm := by
  have h1 : p.2 ∈ pm.name.map (fun q => q.2) := List.mem_map_of_mem _ hp
  unfold referencedKeys
  simp only [List.mem_append]
  tauto

/-- An emails key is referenced. -/
theorem refKeys_emails {pm : PropertyMap} {e : KeyTypeEntry} (he : e ∈ pm.emails) :
    e.key ∈ referencedKeys pm := by
  have h1 : e.key ∈ pm.emails.map (fun q => q.key) := List.mem_map_of_mem _ he
  unfold referencedKeys
  simp only [List.mem_append]
  tauto

/-- A telephones key is referenced. -/
theorem refKeys_tels {pm : PropertyMap} {e : KeyTypeEntry} (he : e ∈ pm.telephones) :
    e.key ∈ referencedKeys pm := by
  have h1 : e.key ∈ pm.telephones.map (fun q => q.key) := List.mem_map_of_mem _ he
  unfold referencedKeys
  simp only [List.mem_append]
  tauto

/-- The street key of an address entry is referenced. -/
theorem refKeys_street {pm : PropertyMap} {a : AdresseEntry} (ha : a ∈ pm.adresses) :
    a.key.street ∈ referencedKeys pm := by
  have h1 : a.key.street ∈ pm.adresses.map (fun q => q.key.street) :=
    List.mem_map_of_mem _ ha
  unfold referencedKeys
  simp only [List.mem_append]
  tauto

/-- The town key of an address entry is referenced. -/
theorem refKeys_town {pm : PropertyMap} {a : AdresseEntry} (ha : a ∈ pm.adresses) :
    a.key.town ∈ referencedKeys pm := by
  have h1 : a.key.town ∈ pm.adresses.map (fun q => q.key.town) :=
    List.mem_map_of_mem _ ha
  unfold referencedKeys
  simp only [List.mem_append]
  tauto

/-- The streetcode key of an address entry is referenced. -/
theorem refKeys_streetcode {pm : PropertyMap} {a : AdresseEntry} (ha : a ∈ pm.adresses) :
    a.key.streetcode ∈ referencedKeys pm := by
  have h1 : a.key.streetcode ∈ pm.adresses.map (fun q => q.key.streetcode) :=
    List.mem_map_of_mem _ ha
  unfold referencedKeys
  simp only [List.mem_append]
  tauto

/-- The country key of an address entry is referenced. -/
theorem refKeys_country {pm : PropertyMap} {a : AdresseEntry} (ha : a ∈ pm.adresses) :
    a.key.country ∈ referencedKeys pm := by
  have h1 : a.key.country ∈ pm.adresses.map (fun q => q.key.country) :=
    List.mem_map_of_mem _ ha
  unfold referencedKeys
  simp only [List.mem_append]
  tauto

/-- The code key of an organization entry is referenced. -/
theorem refKeys_orgCode {pm : PropertyMap} {o : OrgEntry} (ho : o ∈ pm.organizations) :
    o.key.code ∈ referencedKeys pm := by
  have h1 : o.key.code ∈ pm.organizations.map (fun q => q.key.code) :=
    List.mem_map_of_mem _ ho
  unfold referencedKeys
  simp only [List.mem_append]
  tauto

/-- The name key of an organization entry is referenced. -/
theorem refKeys_orgName {pm : PropertyMap} {o : OrgEntry} (ho : o ∈ pm.organizations) :
    o.key.name ∈ referencedKeys pm := by
  have h1 : o.key.name ∈ pm.organizations.map (fun q => q.key.name) :=
    List.mem_map_of_mem _ ho
  unfold referencedKeys
  simp only [List.mem_append]
  tauto

/-- The mapped key of an extra scalar property is referenced. -/
theorem refKeys_extras {pm : PropertyMap} {p : String × String} (hp : p ∈ pm.extras) :
    p.2 ∈ referencedKeys pm := by
  have h1 : p.2 ∈ pm.extras.map (fun q => q.2) := List.mem_map_of_mem _ hp
  unfold referencedKeys
  simp only [List.mem_append]
  tauto

/-- C5 (amended): two attribute bags that agree on every key the PropertyMap
references and on the literal key `id` (which the profile initialiser reads
directly) normalise to identical profiles — all other attribute keys are
dropped and can never influence the profile. -/
theorem C5_unreferenced_keys_dropped (pm : PropertyMap) (u : String) (b1 b2 : Bag)
    (h : ∀ k, (k = "id" ∨ k ∈ referencedKeys pm) → b1 k = b2 k) :
    normalizeProfile pm b1 u = normalizeProfile pm b2 u := by
  have hS : ∀ k ∈ ("id" :: referencedKeys pm), b1 k = b2 k := by
    intro k hk
    exact h k (List.mem_cons.mp hk)
  have hname := nameSection_congr ("id" :: referencedKeys pm) pm.name initName b1 b2
    (fun p hp => List.mem_cons_of_mem _ (refKeys_name hp)) hS
  have hem := emailsSection_congr ("id" :: referencedKeys pm) pm.emails
    (bagAfterName pm b1) (bagAfterName pm b2)
    (fun e he => List.mem_cons_of_mem _ (refKeys_emails he)) hname.2
  have htl := telephonesSection_congr ("id" :: referencedKeys pm) pm.telephones
    (bagAfterEmails pm b1) (bagAfterEmails pm b2)
    (fun e he => List.mem_cons_of_mem _ (refKeys_tels he)) hem.2
  have hat : ∀ k ∈ ("id" :: referencedKeys pm),
      bagAfterTels pm b1 k = bagAfterTels pm b2 k := htl.2
  simp only [normalizeProfile, Profile.mk.injEq]
  refine ⟨trivial, ?_, ?_, ?_, ?_, ?_, ?_, ?_⟩
  · cases hid : pm.id with
    | some k => exact h k (Or.inr (refKeys_id hid))
    | none => rw [h "id" (Or.inl rfl)]
  · rw [hname.1]
  · exact hem.1
  · exact htl.1
  · unfold adressesSection
    exact List.map_congr_left (fun a ha => by
      rw [hat _ (List.mem_cons_of_mem _ (refKeys_street ha)),
          hat _ (List.mem_cons_of_mem _ (refKeys_town ha)),
          hat _ (List.mem_cons_of_mem _ (refKeys_streetcode ha)),
          hat _ (List.mem_cons_of_mem _ (refKeys_country ha))])
  · unfold orgsSection
    exact List.map_congr_left (fun o ho => by
      rw [hat _ (List.mem_cons_of_mem _ (refKeys_orgCode ho)),
          hat _ (List.mem_cons_of_mem _ (refKeys_orgName ho))])
  · unfold extrasSection
    exact List.map_congr_left (fun p hp => by
      rw [hat _ (List.mem_cons_of_mem _ (refKeys_extras hp))])

/-- C5 witness: identical bags trivially satisfy the agreement hypothesis and
give equal profiles. -/
theorem C5_witness :
    normalizeProfile pmTrivial bagEmpty "alice" = normalizeProfile pmTrivial bagEmpty "alice" :=
  C5_unreferenced_keys_dropped pmTrivial "alice" bagEmpty bagEmpty
    (fun _ _ => rfl)

/-- C5 counterexample: the trivial PropertyMap references no attribute key at
all, yet two bags differing only in the literal key `id` — a key the
PropertyMap never references — produce different profiles, because the profile
initialiser reads `attributes.id` directly. -/
theorem C5_counterexample :
    referencedKeys pmTrivial = [] ∧
    normalizeProfile pmTrivial bagEmpty "alice" ≠ normalizeProfile pmTrivial bagOnlyId "alice" := by
  refine ⟨rfl, ?_⟩
  intro hcontra
  have h1 : (normalizeProfile pmTrivial bagEmpty "alice").id = some "alice" := rfl
  have h2 : (normalizeProfile pmTrivial bagOnlyId "alice").id = some "xleak" := rfl
  rw [hcontra, h2] at h1
  exact absurd (Option.some.injEq _ _ ▸ h1) (by decide)

/-- Looking a key up after a JavaScript-style overwrite. -/
theorem assocSet_lookup {α : Type} (l : List (String × α)) (k k2 : String) (v : α) :
    assocLookup (assocSet l k v) k2 = if k2 = k then some v else assocLookup l k2 := by
  induction l with
  | nil =>
    by_cases h : k2 = k
    · simp [assocSet, assocLookup, h]
    · simp [assocSet, assocLookup, h, Ne.symm h]
  | cons p rest ih =>
    obtain ⟨k1, v1⟩ := p
    by_cases h1 : k1 = k
    · subst h1
      by_cases h2 : k2 = k1
      · simp [assocSet, assocLookup, h2]
      · simp [assocSet, assocLookup, h2, Ne.symm h2]
    · by_cases h2 : k2 = k1
      · subst h2
        simp [assocSet, assocLookup, h1, Ne.symm h1]
      · simp [assocSet, assocLookup, h1, h2, Ne.symm h2, ih]

/-- Reading `['#text']` of a present `AttributeValue` never faults and yields
exactly `attrText`. -/
theorem jsIndexStr_text_ok (fs : List (String × JsTree))
    (hne : (assocLookup fs "AttributeValue").getD .undefined ≠ .undefined) :
    jsIndexStr ((assocLookup fs "AttributeValue").getD .undefined) "#text" =
      .ok (attrText (.obj fs)) := by
  cases hv : (assocLookup fs "AttributeValue").getD .undefined with
  | undefined => exact absurd hv hne
  | str s =>
      simp only [jsIndexStr, attrText, hv]
      rw [if_neg (by decide)]
  | num n => simp only [jsIndexStr, attrText, hv]
  | obj g => simp only [jsIndexStr, attrText, hv]
  | arr l =>
      simp only [jsIndexStr, attrText, hv]
      rw [if_neg (by decide)]

/-- The attribute loop of the fast-xml-parser client never faults on
well-formed entries, and the bag it builds binds each name to the text of the
LAST entry carrying that name — earlier entries are overwritten, never
accumulated into a list. -/
theorem parseAttrList_lookup (name : String) :
    ∀ (attrs : List JsTree) (acc : List (String × JsTree)),
    attrs.all wfAttr = true →
    Except.map (fun bag => assocLookup bag name) (parseAttrList attrs acc) =
      .ok (match lastAttrText attrs name with
           | some v => some v
           | none => assocLookup acc name)
  | [], acc, _ => by simp [parseAttrList, lastAttrText, Except.map]
  | a :: rest, acc, h => by
    simp only [List.all_cons, Bool.and_eq_true] at h
    obtain ⟨ha, hrest⟩ := h
    have ih := parseAttrList_lookup name rest acc hrest
    cases a with
    | undefined => simp [wfAttr] at ha
    | str s =>
      have hstep : parseAttrList ((JsTree.str s) :: rest) acc = parseAttrList rest acc := by
        simp [parseAttrList, jsHasOwn]
      have hlast : lastAttrText ((JsTree.str s) :: rest) name = lastAttrText rest name := by
        cases hl : lastAttrText rest name <;> simp [lastAttrText, attrNameMatches, hl]
      rw [hstep, hlast]
      exact ih
    | num n =>
      have hstep : parseAttrList ((JsTree.num n) :: rest) acc = parseAttrList rest acc := by
        simp [parseAttrList, jsHasOwn]
      have hlast : lastAttrText ((JsTree.num n) :: rest) name = lastAttrText rest name := by
        cases hl : lastAttrText rest name <;> simp [lastAttrText, attrNameMatches, hl]
      rw [hstep, hlast]
      exact ih
    | arr l =>
      have hstep : parseAttrList ((JsTree.arr l) :: rest) acc = parseAttrList rest acc := by
        simp [parseAttrList, jsHasOwn]
      have hlast : lastAttrText ((JsTree.arr l) :: rest) name = lastAttrText rest name := by
        cases hl : lastAttrText rest name <;> simp [lastAttrText, attrNameMatches, hl]
      rw [hstep, hlast]
      exact ih
    | obj fs =>
      cases hn : assocLookup fs "@_AttributeName" with
      | none =>
        have hstep : parseAttrList ((JsTree.obj fs) :: rest) acc = parseAttrList rest acc := by
          simp [parseAttrList, jsHasOwn, hn]
        have hlast : lastAttrText ((JsTree.obj fs) :: rest) name = lastAttrText rest name := by
          cases hl : lastAttrText rest name <;>
            simp [lastAttrText, attrNameMatches, hn, hl]
        rw [hstep, hlast]
        exact ih
      | some v =>
        have hne : (assocLookup fs "AttributeValue").getD .undefined ≠ .undefined := by
          intro hc
          simp [wfAttr, hn, hc] at ha
        have htv := jsIndexStr_text_ok fs hne
        have h1 : jsHasOwn (JsTree.obj fs) "@_AttributeName" = .ok true := by
          simp [jsHasOwn, hn]
        have h2 : jsIndexStr (JsTree.obj fs) "@_AttributeName" = .ok v := by
          simp [jsIndexStr, hn]
        have h3 : jsIndexStr (JsTree.obj fs) "AttributeValue" =
            .ok ((assocLookup fs "AttributeValue").getD .undefined) := by
          simp [jsIndexStr]
        have hstep : parseAttrList ((JsTree.obj fs) :: rest) acc =
            parseAttrList rest (assocSet acc (jsCoerceString v) (attrText (.obj fs))) := by
          simp [parseAttrList, h1, h2, h3, htv]
        have ih2 := parseAttrList_lookup name rest
          (assocSet acc (jsCoerceString v) (attrText (.obj fs))) hrest
        rw [hstep, ih2]
        cases hl : lastAttrText rest name with
        | some w =>
          have hlast : lastAttrText ((JsTree.obj fs) :: rest) name = some w := by
            simp [lastAttrText, hl]
          rw [hlast]
        | none =>
          by_cases he : name = jsCoerceString v
          · have hlast : lastAttrText ((JsTree.obj fs) :: rest) name =
                some (attrText (.obj fs)) := by
              simp only [lastAttrText, hl, attrNameMatches, hn]
              rw [he]
              simp
            rw [hlast, assocSet_lookup, if_pos he]
          · have hlast : lastAttrText ((JsTree.obj fs) :: rest) name = none := by
              simp only [lastAttrText, hl, attrNameMatches, hn]
              simp [Ne.symm he]
            rw [hlast, assocSet_lookup, if_neg he]

/-- C1: for every well-formed list of Variant B attribute entries, the bag
`parseAttributes` builds maps each attribute name to the single text of the
LAST entry carrying that name (no list accumulation), and on the concrete
success response for subject `bob` with `UTILISATEUR.MEL = b@x.com` the whole
handler produces the successful callback with the plain-string bag. -/
theorem C1_variantB_last_wins (attrs : List JsTree) (h : attrs.all wfAttr = true)
    (name : String) :
    (Except.map (fun bag => assocLookup bag name) (parseAttributes (.arr attrs)) =
      .ok (lastAttrText attrs name)) ∧
    endHandler (.ok bobTree) "T-bob" =
      .cbSuccess (.str "bob") [("UTILISATEUR.MEL", .str "b@x.com")] "T-bob" := by
  constructor
  · have h2 := parseAttrList_lookup name attrs [] h
    have h3 : parseAttributes (JsTree.arr attrs) = parseAttrList attrs [] := rfl
    rw [h3, h2]
    cases lastAttrText attrs name <;> rfl
  · rfl

/-- C1 witness: the single `bob` attribute entry is well formed and the
theorem instantiates on it. -/
theorem C1_witness :
    ([bobAttrEntry].all wfAttr = true) ∧
    ((Except.map (fun bag => assocLookup bag "UTILISATEUR.MEL")
        (parseAttributes (.arr [bobAttrEntry])) =
      .ok (lastAttrText [bobAttrEntry] "UTILISATEUR.MEL")) ∧
     endHandler (.ok bobTree) "T-bob" =
       .cbSuccess (.str "bob") [("UTILISATEUR.MEL", .str "b@x.com")] "T-bob") :=
  ⟨rfl, C1_variantB_last_wins [bobAttrEntry] rfl "UTILISATEUR.MEL"⟩

/-- C9 (amended): a body on which the XML parse throws reaches the callback as
a parse error — the catch block fires before any variant dispatch — but a body
that parses to well-formed XML lacking the `Envelope → Body → Response` root
raises an uncaught `TypeError` in the fast-xml-parser client, because the code
after the `try`/`catch` dereferences the missing tree nodes unprotected. -/
theorem C9_parse_error_vs_uncaught (e : String) (t : String) :
    endHandler (.err e) t = .cbParseError e ∧
    endHandler (.ok fooTree) t = .uncaught .typeError :=
  ⟨rfl, rfl⟩

/-- C9 counterexample: the well-formed body `<foo/>` parses, so no parse error
reaches the callback; instead the handler dies with an uncaught `TypeError`,
refuting the claim that such responses surface a parse error and never an
unhandled fault. -/
theorem C9_counterexample :
    endHandler (.ok fooTree) "T" = .uncaught .typeError := rfl

/-- Stripping a literal off a list that starts with it. -/
theorem stripLit_self (p r : List Char) : stripLit p (p ++ r) = some r := by
  induction p with
  | nil => rfl
  | cons c cs ih => simp [stripLit, ih]

/-- A greedy span consumes the whole list when every character matches. -/
theorem spanP_total (p : Char → Bool) (l : List Char) (h : l.all p = true) :
    spanP p l = (l, []) := by
  induction l with
  | nil => rfl
  | cons c rest ih =>
    simp only [List.all_cons, Bool.and_eq_true] at h
    simp [spanP, h.1, ih h.2]

/-- A URL with no underscore has no `_cas_retry` marker to strip. -/
theorem stripRetryMarker_id (l : List Char) (h : ('_' : Char) ∉ l) :
    stripRetryMarker l = l := by
  induction l with
  | nil => rfl
  | cons c rest ih =>
    have hc : c ≠ '_' := by
      intro hcc
      exact h (hcc ▸ List.mem_cons_self c rest)
    have hm : matchRetryMarker (c :: rest) = none := by
      have hdata : "_cas_retry=".data = '_' :: "cas_retry=".data := rfl
      simp [matchRetryMarker, hdata, stripLit, hc]
    have hrest : ('_' : Char) ∉ rest := fun hr => h (List.mem_cons_of_mem c hr)
    simp [stripRetryMarker, hm, ih hrest]

/-- Matching the ticket parameter against `ticket=` followed by ticket
characters only. -/
theorem matchTicketParam_exact (tk : List Char) (hne : tk ≠ [])
    (h : tk.all isTicketChar = true) :
    matchTicketParam ("ticket=".data ++ tk) = some [] := by
  cases tk with
  | nil => exact absurd rfl hne
  | cons c cs =>
    unfold matchTicketParam
    rw [stripLit_self]
    simp [spanP_total isTicketChar (c :: cs) h]

/-- A character that is not `?` or `&` is copied through the ticket
replacement. -/
theorem replaceTicket_skip (tok : String) (c : Char) (l : List Char)
    (h : (c = '?' || c = '&') = false) :
    replaceTicketParam tok (c :: l) = c :: replaceTicketParam tok l := by
  simp [replaceTicketParam, h]

/-- At a `?` followed by a full ticket parameter the replacement plants the
retry marker. -/
theorem replaceTicket_at_q (tok : String) (rest : List Char)
    (h : matchTicketParam rest = some []) :
    replaceTicketParam tok ('?' :: rest) = '?' :: ("_cas_retry=" ++ tok).data := by
  simp [replaceTicketParam, h]

/-- Walking the concrete callback path up to its query. -/
theorem replaceTicket_walk (tok : String) (tk : List Char) (hne : tk ≠ [])
    (h : tk.all isTicketChar = true) :
    replaceTicketParam tok ("/app/cb?ticket=".data ++ tk) =
      "/app/cb?".data ++ ("_cas_retry=" ++ tok).data := by
  show replaceTicketParam tok
      ('/' :: 'a' :: 'p' :: 'p' :: '/' :: 'c' :: 'b' :: '?' :: ("ticket=".data ++ tk)) = _
  rw [replaceTicket_skip tok '/' _ (by decide),
      replaceTicket_skip tok 'a' _ (by decide),
      replaceTicket_skip tok 'p' _ (by decide),
      replaceTicket_skip tok 'p' _ (by decide),
      replaceTicket_skip tok '/' _ (by decide),
      replaceTicket_skip tok 'c' _ (by decide),
      replaceTicket_skip tok 'b' _ (by decide),
      replaceTicket_at_q tok _ (matchTicketParam_exact tk hne h)]
  rfl

/-- The redirect URL built from a callback URL carrying only a ticket
parameter of plain ticket characters: the ticket is stripped and the marker
stamped in its place. -/
theorem casRetryUrl_stamps (tok : String) (tk : String) (hne : tk ≠ "")
    (h : tk.data.all (fun c => c.isAlphanum || c = '.' || c = '-') = true) :
    casRetryUrl ("/app/cb?ticket=" ++ tk) tok = "/app/cb?_cas_retry=" ++ tok := by
  have hdne : tk.data ≠ [] := by
    intro hc
    exact hne (String.ext (by rw [hc]))
  have htkchar : tk.data.all isTicketChar = true := by
    rw [List.all_eq_true] at h ⊢
    intro x hx
    have hh := h x hx
    simp only [Bool.or_eq_true, decide_eq_true_eq] at hh
    unfold isTicketChar
    simp only [Bool.or_eq_true, decide_eq_true_eq]
    tauto
  have hnounder : ('_' : Char) ∉ ("/app/cb?ticket=".data ++ tk.data) := by
    rw [List.mem_append]
    rintro (h1 | h2)
    · exact absurd h1 (by decide)
    · rw [List.all_eq_true] at h
      have hh := h _ h2
      simp at hh
  unfold casRetryUrl
  rw [String.data_append, stripRetryMarker_id _ hnounder,
    replaceTicket_walk tok tk.data hdne htkchar]
  apply String.ext
  show "/app/cb?".data ++ ("_cas_retry=" ++ tok).data =
    ("/app/cb?_cas_retry=" ++ tok).data
  rw [String.data_append, String.data_append, ← List.append_assoc]
  rfl

/-- C2: on a validation failure, a retry marker equal to the current window
token makes `authenticate` fail terminally with no further redirect; an absent
or different marker produces exactly one 307 redirect to the rewritten
original URL; and on a callback URL carrying a ticket parameter the rewritten
URL is the original with the ticket stripped and the current window token
stamped as the retry marker. -/
theorem C2_retry_controller (marker : Option ℤ) (now : ℕ) (origUrl : String) :
    (marker = some (casTimeToken now) →
      casFailureHandler marker now origUrl = .fail) ∧
    (marker ≠ some (casTimeToken now) →
      casFailureHandler marker now origUrl =
        .redirect (casRetryUrl origUrl (toString (casTimeToken now))) 307) ∧
    (∀ tk : String, tk ≠ "" →
      tk.data.all (fun c => c.isAlphanum || c = '.' || c = '-') = true →
      casRetryUrl ("/app/cb?ticket=" ++ tk) (toString (casTimeToken now)) =
        "/app/cb?_cas_retry=" ++ toString (casTimeToken now)) := by
  refine ⟨?_, ?_, ?_⟩
  · intro hm
    unfold casFailureHandler
    rw [if_pos hm]
  · intro hm
    unfold casFailureHandler
    rw [if_neg hm]
  · intro tk h1 h2
    exact casRetryUrl_stamps _ tk h1 h2

/-- C2 witness: at `now = 90000` the token is `2`; a marker carrying `2`
fails terminally, an absent marker redirects once with the stamped URL. -/
theorem C2_witness :
    (some (2 : ℤ) = some (casTimeToken 90000) ∧
     casFailureHandler (some 2) 90000 "/app/cb?ticket=ST-1" = .fail) ∧
    (none ≠ some (casTimeToken 90000) ∧
     casFailureHandler none 90000 "/app/cb?ticket=ST-1" =
       .redirect (casRetryUrl "/app/cb?ticket=ST-1" (toString (casTimeToken 90000))) 307) ∧
    casRetryUrl "/app/cb?ticket=ST-1" (toString (casTimeToken 90000)) =
      "/app/cb?_cas_retry=" ++ toString (casTimeToken 90000) := by
  have htok : casTimeToken 90000 = 2 := by
    rw [casTimeToken_round]
    decide
  refine ⟨⟨by rw [htok], ?_⟩, ⟨by rw [htok]; decide, ?_⟩, ?_⟩
  · exact (C2_retry_controller (some 2) 90000 "/app/cb?ticket=ST-1").1 (by rw [htok])
  · exact (C2_retry_controller none 90000 "/app/cb?ticket=ST-1").2.1 (by rw [htok]; decide)
  · exact (C2_retry_controller none 90000 "x").2.2 "ST-1" (by decide) (by decide)
